import Mathlib

/-!
Verification of the Familiada game-session core (`src/scripts`): the
`Round`/`Team`/`Game`/`QuestionStore` state machine.  The definitions below
are a shallow embedding of the TypeScript classes; DOM/audio calls
(`board.*`, `audio.*`) are fire-and-forget effects with no influence on the
core state and are dropped.  JavaScript numbers are modelled as `Nat`
(every numeric field of the core is a count or a point total that starts
at 0 and only ever has non-negative amounts added; the `Math.max(0, _)`
clamps in `Team.setPoints`/`Team.setErrors` are the identity on such
values).  The JS `Set<number>` of revealed ranks is modelled as a
duplicate-free `List Nat` in insertion order (every `add` is guarded by a
`has` check, and the undo path round-trips it through `Array.from`, which
preserves exactly the elements).
-/

/-- Embedding of `roundStatus.ts`: enum ROUND_STATUS { DEFAULT, STOLEN }. -/
inductive ROUND_STATUS where
  | DEFAULT : ROUND_STATUS
  | STOLEN : ROUND_STATUS
deriving DecidableEq, Repr, BEq

/-- Embedding of `model/answer.ts`: class Answer { ans; lp; points }. -/
structure Answer where
  ans : String
  lp : Nat
  points : Nat
deriving DecidableEq, Repr

/-- The `Answer` constructor copies the `ans`/`lp`/`points` fields of the raw
record it receives; raw records carry exactly those fields, so the copy is
field-by-field. -/
def Answer.ofRec (answer : Answer) : Answer :=
  { ans := answer.ans, lp := answer.lp, points := answer.points }

/-- Embedding of `model/question.ts`: class Question { name; answers }. -/
structure Question where
  name : String
  answers : List Answer
deriving DecidableEq, Repr

/-- The `Question` constructor: `this.answers = answers.filter(a => a !== null)`.
`null` entries of the TypeScript `(Answer | null)[]` argument are modelled as
`none`. -/
def mkQuestion (name : String) (answers : List (Option Answer)) : Question :=
  { name := name, answers := answers.filterMap id }

/-- Embedding of the `Team` class: name, points, errors. -/
structure Team where
  name : String
  points : Nat
  errors : Nat
deriving DecidableEq, Repr

/-- `Team.addPoints`: `this.points += points`. -/
def Team.addPoints (t : Team) (points : Nat) : Team :=
  { t with points := t.points + points }

/-- `Team.setPoints`: `this.points = Math.max(0, points)` (identity on `Nat`). -/
def Team.setPoints (t : Team) (points : Nat) : Team :=
  { t with points := max 0 points }

/-- `Team.addError`: `this.errors += 1`. -/
def Team.addError (t : Team) : Team :=
  { t with errors := t.errors + 1 }

/-- `Team.setErrors`: `this.errors = Math.max(0, errorCnt)` (identity on `Nat`). -/
def Team.setErrors (t : Team) (errorCnt : Nat) : Team :=
  { t with errors := max 0 errorCnt }

/-- `Team.resetErrors`: `this.errors = 0`. -/
def Team.resetErrors (t : Team) : Team :=
  { t with errors := 0 }

/-- Embedding of `model/questionStore.ts`: the question list and the circular
cursor.  The `random` construction-time shuffle only permutes the list before
play starts and is irrelevant to the cursor/undo behaviour. -/
structure QuestionStore where
  questions : List Question
  currentQuestionIndex : Nat
deriving DecidableEq, Repr

/-- `QuestionStore.parseQuestions`: for each `[title, answers]` entry,
`answers.filter(a => a).map(a => new Answer(a))` builds the answer list (nullish
entries modelled as `none` are dropped by the truthiness filter) and
`new Question(title, parsedAnswers)` re-filters nulls in the constructor. -/
def parseQuestions (questions : List (String × List (Option Answer))) : List Question :=
  questions.map (fun p => mkQuestion p.1 (((p.2.filterMap id).map Answer.ofRec).map some))

/-- `QuestionStore` constructor with `random = false` (the sequential path;
with `random = true` the list is additionally Fisher-Yates-permuted once). -/
def QuestionStore.make (questions : List (String × List (Option Answer))) : QuestionStore :=
  { questions := parseQuestions questions, currentQuestionIndex := 0 }

/-- `getQuestion()` / `getNextQuestion()`: returns the question at the cursor
and advances the cursor by one modulo the length; returns `undefined` (here
`none`) when the store is empty, leaving the cursor alone. -/
def QuestionStore.getQuestion (s : QuestionStore) : Option Question × QuestionStore :=
  if s.questions.length = 0 then (none, s)
  else (s.questions.get? s.currentQuestionIndex,
        { s with currentQuestionIndex := (s.currentQuestionIndex + 1) % s.questions.length })

/-- `setCurrentQuestionIndex(index)`: normalizes the index into `[0, length)`
via `((index % length) + length) % length`; resets to 0 on an empty store. -/
def QuestionStore.setCurrentQuestionIndex (s : QuestionStore) (index : Nat) : QuestionStore :=
  if s.questions.length = 0 then { s with currentQuestionIndex := 0 }
  else { s with currentQuestionIndex :=
          ((index % s.questions.length) + s.questions.length) % s.questions.length }

/-- Embedding of the `Round` class fields: right, status, points, revealed,
question. -/
structure Round where
  right : Nat
  status : ROUND_STATUS
  points : Nat
  revealed : List Nat
  question : Question
deriving DecidableEq, Repr

/-- The `Round` constructor: `right = 0; status = DEFAULT; points = 0;
revealed = new Set(); question = question` (the `board.setQuestion` /
`board.manageAnswerFields` calls are rendering effects). -/
def Round.make (question : Question) : Round :=
  { right := 0, status := ROUND_STATUS.DEFAULT, points := 0, revealed := [], question := question }

/-- `Round.checkFinish()`: `this.question.getAnswers().length === this.right`. -/
def Round.checkFinish (r : Round) : Bool :=
  r.question.answers.length == r.right

/-- `Round.revealAnswerOnly(answer)`: guarded by the `revealed.has` check,
marks the rank revealed and increments `right` (no points are added; the
`board.setAnswer` / `audio.playReveal` calls are effects). -/
def Round.revealAnswerOnly (r : Round) (answer : Answer) : Round :=
  if answer.lp ∈ r.revealed then r
  else { r with revealed := r.revealed ++ [answer.lp], right := r.right + 1 }

/-- The round multiplier, as computed inline in `Round.finishRound` and in the
STOLEN branch of `Round.setBoardError`:
`(roundCount === 4) ? 2 : (roundCount === 5) ? 3 : 1`. -/
def multiplier (roundCount : Nat) : Nat :=
  if roundCount = 4 then 2 else if roundCount = 5 then 3 else 1

/-- Snapshot pushed by `Game.pushUndoSnapshot` (the `board` blob of DOM HTML
is presentation state outside the core and is dropped; `teamState` copies
each team's name/points/errors, which is exactly a `Team` value). -/
structure UndoSnapshot where
  roundCount : Nat
  pendingNextRound : Bool
  currentTeam : String
  questionsStoreIndex : Nat
  roundQuestion : Question
  roundStatus : ROUND_STATUS
  roundPoints : Nat
  roundRight : Nat
  revealed : List Nat
  teamState : List Team
deriving DecidableEq, Repr

/-- Embedding of the `Game` class fields.  `currentTeam` is the active team's
name; the constructor immediately sets it to a real team name and `undo`
restores `this.currentTeam || ''`, so in every reachable state it is a plain
string, with `""` playing the role of "no team selected". -/
structure Game where
  teams : List Team
  questionsStore : QuestionStore
  roundCount : Nat
  pendingNextRound : Bool
  undoStack : List UndoSnapshot
  round : Round
  currentTeam : String
deriving DecidableEq, Repr

/-- The snapshot value built inside `Game.pushUndoSnapshot`. -/
def Game.mkSnapshot (g : Game) : UndoSnapshot :=
  { roundCount := g.roundCount,
    pendingNextRound := g.pendingNextRound,
    currentTeam := g.currentTeam,
    questionsStoreIndex := g.questionsStore.currentQuestionIndex,
    roundQuestion := g.round.question,
    roundStatus := g.round.status,
    roundPoints := g.round.points,
    roundRight := g.round.right,
    revealed := g.round.revealed,
    teamState := g.teams.map (fun team =>
      { name := team.name, points := team.points, errors := team.errors }) }

/-- `Game.pushUndoSnapshot()`: pushes the snapshot; the top of the JS array
stack is modelled as the head of the list. -/
def Game.pushUndoSnapshot (g : Game) : Game :=
  { g with undoStack := g.mkSnapshot :: g.undoStack }

/-- `Game.getCurrentTeam()`: `null` when no name is set, otherwise the first
team whose name matches (`Array.find`). -/
def Game.getCurrentTeam (g : Game) : Option Team :=
  if g.currentTeam = "" then none
  else g.teams.find? (fun team => team.name == g.currentTeam)

/-- `Game.setCurrentTeam(teamName, {skipUndo})`: optionally pushes a snapshot,
then records the name (the `board.setActiveTeam` call is an effect). -/
def Game.setCurrentTeam (g : Game) (teamName : String) (skipUndo : Bool) : Game :=
  let g1 := if skipUndo then g else g.pushUndoSnapshot
  { g1 with currentTeam := teamName }

/-- `Game.switchCurrentTeam()`: finds the first team whose name differs from
the current one and makes it active (with `skipUndo`); does nothing when every
team carries the current name. -/
def Game.switchCurrentTeam (g : Game) : Game :=
  match g.teams.find? (fun team => team.name != g.currentTeam) with
  | some otherTeam => g.setCurrentTeam otherTeam.name true
  | none => g

/-- `team.addPoints(p)` applied to the team object returned by a name lookup:
in the pure model, the first list entry with that name is updated. -/
def addPointsByName : List Team → String → Nat → List Team
  | [], _, _ => []
  | t :: rest, n, p =>
      if t.name = n then t.addPoints p :: rest else t :: addPointsByName rest n p

/-- `team.addError()` applied to the team object returned by a name lookup. -/
def addErrorByName : List Team → String → List Team
  | [], _ => []
  | t :: rest, n => if t.name = n then t.addError :: rest else t :: addErrorByName rest n

/-- Points of the (first) team with the given name, 0 when absent. -/
def pointsOfTeam (g : Game) (n : String) : Nat :=
  ((g.teams.find? (fun team => team.name == n)).map Team.points).getD 0

/-- Errors of the (first) team with the given name, 0 when absent. -/
def errorsOfTeam (g : Game) (n : String) : Nat :=
  ((g.teams.find? (fun team => team.name == n)).map Team.errors).getD 0

/-- `Round.finishRound(game)`: award `points × multiplier` to the current
team, run the ≥400 win check (on a win, `finishGame` renders the banner and
the method returns early), otherwise switch the active team and set
`pendingNextRound`. -/
def Game.finishRound (g : Game) : Game :=
  let awardedPoints := g.round.points * multiplier g.roundCount
  match g.getCurrentTeam with
  | some currentTeam =>
      let g1 := { g with teams := addPointsByName g.teams g.currentTeam awardedPoints }
      if currentTeam.points + awardedPoints ≥ 400 then g1
      else { g1.switchCurrentTeam with pendingNextRound := true }
  | none => { g.switchCurrentTeam with pendingNextRound := true }

/-- `Round.setBoardAnswer(answer, game)`: no-op on an already revealed rank;
otherwise reveal, increment `right`, add the answer's points, and finish the
round when all answers are revealed or the round is STOLEN. -/
def Game.setBoardAnswer (g : Game) (answer : Answer) : Game :=
  if answer.lp ∈ g.round.revealed then g
  else
    let r1 := { g.round with
                  revealed := g.round.revealed ++ [answer.lp],
                  right := g.round.right + 1,
                  points := g.round.points + answer.points }
    let g1 := { g with round := r1 }
    if r1.checkFinish || (r1.status == ROUND_STATUS.STOLEN) then g1.finishRound else g1

/-- `Round.setBoardError(team, game)`: increment the erring team's errors;
in the STOLEN state resolve the steal (switch, award `points × multiplier`
to the opponent, win check with early return, switch back, set
`pendingNextRound`); in the DEFAULT state flip to STOLEN and swap the active
team when the erring team's errors reach 3. -/
def Game.setBoardError (g : Game) (teamName : String) : Game :=
  let g0 := { g with teams := addErrorByName g.teams teamName }
  if g0.round.status == ROUND_STATUS.STOLEN then
    let g1 := g0.switchCurrentTeam
    let awardedPoints := g1.round.points * multiplier g1.roundCount
    match g1.getCurrentTeam with
    | some currentTeam =>
        let g2 := { g1 with teams := addPointsByName g1.teams g1.currentTeam awardedPoints }
        if currentTeam.points + awardedPoints ≥ 400 then g2
        else { g2.switchCurrentTeam with pendingNextRound := true }
    | none => { g1.switchCurrentTeam with pendingNextRound := true }
  else
    if errorsOfTeam g0 teamName = 3 then
      { g0.switchCurrentTeam with round := { g0.round with status := ROUND_STATUS.STOLEN } }
    else g0

/-- JavaScript `String.toLowerCase` restricted to the characters this data
set uses: ASCII letters plus the Polish uppercase letters. -/
def jsToLowerChar (c : Char) : Char :=
  if 'A' ≤ c ∧ c ≤ 'Z' then Char.ofNat (c.toNat + 32)
  else if c = 'Ą' then 'ą' else if c = 'Ć' then 'ć' else if c = 'Ę' then 'ę'
  else if c = 'Ł' then 'ł' else if c = 'Ń' then 'ń' else if c = 'Ó' then 'ó'
  else if c = 'Ś' then 'ś' else if c = 'Ź' then 'ź' else if c = 'Ż' then 'ż'
  else c

/-- `String.toLowerCase` applied character by character. -/
def jsToLowerString (s : String) : String :=
  String.mk (s.data.map jsToLowerChar)

/-- Unicode NFKD decomposition for the characters this data set uses: the
Polish diacritic letters decompose into a base letter plus a combining mark
(U+0301 acute, U+0307 dot above, U+0328 ogonek); `ł`/`Ł` have no
decomposition, and ASCII characters decompose to themselves. -/
def nfkdChar (c : Char) : List Char :=
  if c = 'ą' then ['a', '̨'] else if c = 'Ą' then ['A', '̨']
  else if c = 'ć' then ['c', '́'] else if c = 'Ć' then ['C', '́']
  else if c = 'ę' then ['e', '̨'] else if c = 'Ę' then ['E', '̨']
  else if c = 'ń' then ['n', '́'] else if c = 'Ń' then ['N', '́']
  else if c = 'ó' then ['o', '́'] else if c = 'Ó' then ['O', '́']
  else if c = 'ś' then ['s', '́'] else if c = 'Ś' then ['S', '́']
  else if c = 'ź' then ['z', '́'] else if c = 'Ź' then ['Z', '́']
  else if c = 'ż' then ['z', '̇'] else if c = 'Ż' then ['Z', '̇']
  else [c]

/-- The character class `[\w\s.-_\/]` of the final replace in
`removeDiacritics`: word characters, whitespace, the range U+002E–U+005F
(`.-_` is a character range), and `/`. -/
def allowedChar (c : Char) : Bool :=
  (('a' ≤ c ∧ c ≤ 'z') || ('A' ≤ c ∧ c ≤ 'Z') || ('0' ≤ c ∧ c ≤ '9') || c = '_')
  || (c = ' ' || c = '\t' || c = '\n' || c = '\x0d' || c = '\x0b' || c = '\x0c')
  || ('.' ≤ c ∧ c ≤ '_')
  || c = '/'

/-- `board.removeDiacritics(input)`:
`input.replace(/ł/g, "l").normalize('NFKD').replace(/[^\w\s.-_\/]/g, '')`. -/
def removeDiacritics (input : String) : String :=
  String.mk
    ((((input.data.map (fun c => if c = 'ł' then 'l' else c)).flatMap nfkdChar)).filter
      allowedChar)

/-- `Game.resolvePlayerAnswer(playerAnswer)`: the first answer whose
lower-cased text equals the diacritic-stripped guess; the TS
`{answer, status}` result is `some`/`none`. -/
def Game.resolvePlayerAnswer (g : Game) (playerAnswer : String) : Option Answer :=
  g.round.question.answers.find? (fun answer =>
    jsToLowerString answer.ans == removeDiacritics playerAnswer)

/-- `Game.handlePlayerAnswer(playerAnswer)`: push a snapshot, resolve the
guess, then dispatch on the active team and the match result. -/
def Game.handlePlayerAnswer (g : Game) (playerAnswer : String) : Game :=
  let g0 := g.pushUndoSnapshot
  let result := g0.resolvePlayerAnswer playerAnswer
  match g0.getCurrentTeam with
  | none =>
      match result with
      | some answer =>
          let r := g0.round.revealAnswerOnly answer
          let g1 := { g0 with round := r }
          if r.checkFinish then { g1 with pendingNextRound := true } else g1
      | none => g0
  | some currentTeam =>
      match result with
      | some answer => g0.setBoardAnswer answer
      | none => g0.setBoardError currentTeam.name

/-- `Game.revealAnswerByNumber(number)`: `false` when the rank is not among
the current question's answers (no snapshot); otherwise push a snapshot and
reveal through the award-less or awarding path depending on the active team. -/
def Game.revealAnswerByNumber (g : Game) (number : Nat) : Bool × Game :=
  match g.round.question.answers.find? (fun a => a.lp == number) with
  | none => (false, g)
  | some answer =>
      let g0 := g.pushUndoSnapshot
      match g0.getCurrentTeam with
      | none =>
          let r := g0.round.revealAnswerOnly answer
          let g1 := { g0 with round := r }
          (true, if r.checkFinish then { g1 with pendingNextRound := true } else g1)
      | some _ => (true, g0.setBoardAnswer answer)

/-- `Game.addErrorForSelectedTeam()`: `false` when no team is active (no
snapshot); otherwise push a snapshot and record an error for the active team. -/
def Game.addErrorForSelectedTeam (g : Game) : Bool × Game :=
  match g.getCurrentTeam with
  | none => (false, g)
  | some currentTeam => (true, g.pushUndoSnapshot.setBoardError currentTeam.name)

/-- `Game.setRandomTeam()`: `teams[Math.round(Math.random())]` picks slot 0
or 1; the coin flip is a parameter.  `none` models the crash of
`this.teams[i].getName()` when the slot is missing. -/
def Game.setRandomTeam (g : Game) (pick : Bool) : Option Game :=
  (g.teams.get? (cond pick 1 0)).map (fun team => g.setCurrentTeam team.name true)

/-- `Game.startNewRound()`: push a snapshot, clear `pendingNextRound`, reset
both teams' errors, bump the round counter, build a new round from the next
question, and pick a random starting team.  `none` models the crash of
`new Round(this.questionsStore.getQuestion()!)` on an empty store. -/
def Game.startNewRound (g : Game) (pick : Bool) : Option Game :=
  let g0 := g.pushUndoSnapshot
  let g1 := { g0 with
                pendingNextRound := false,
                teams := g0.teams.map Team.resetErrors,
                roundCount := g0.roundCount + 1 }
  match g1.questionsStore.getQuestion with
  | (some q, store1) =>
      ({ g1 with questionsStore := store1, round := Round.make q }).setRandomTeam pick
  | (none, _) => none

/-- `Game.advanceToNextRound()`: `false` without touching anything when no
round is pending, otherwise `startNewRound` and `true`. -/
def Game.advanceToNextRound (g : Game) (pick : Bool) : Option (Bool × Game) :=
  if !g.pendingNextRound then some (false, g)
  else (g.startNewRound pick).map (fun g1 => (true, g1))

/-- The team-restore loop of `Game.undo`: for each saved team state,
`this.teams.find(t => t.getName() === state.name)` then
`setPoints`/`setErrors` on the found object — i.e. update the first
list entry with that name. -/
def updateTeamByName : List Team → Team → List Team
  | [], _ => []
  | t :: rest, st =>
      if t.name = st.name then (t.setPoints st.points).setErrors st.errors :: rest
      else t :: updateTeamByName rest st

/-- `for (const state of snapshot.teamState) { ... }`. -/
def restoreTeams (teams : List Team) (states : List Team) : List Team :=
  states.foldl updateTeamByName teams

/-- `Game.undo()`: pop the latest snapshot (`false` when empty) and restore
round counter, pending flag, store cursor, team points/errors, the round
(rebuilt from the saved question with saved status/points/right/revealed),
and the active team (with `skipUndo`); the board-DOM restore is a
presentation effect. -/
def Game.undo (g : Game) : Bool × Game :=
  match g.undoStack with
  | [] => (false, g)
  | snapshot :: rest =>
      let g1 := { g with
                    undoStack := rest,
                    roundCount := snapshot.roundCount,
                    pendingNextRound := snapshot.pendingNextRound }
      let g2 := { g1 with
                    questionsStore :=
                      g1.questionsStore.setCurrentQuestionIndex snapshot.questionsStoreIndex }
      let g3 := { g2 with teams := restoreTeams g2.teams snapshot.teamState }
      let g4 := { g3 with
                    round := { right := snapshot.roundRight,
                               status := snapshot.roundStatus,
                               points := snapshot.roundPoints,
                               revealed := snapshot.revealed,
                               question := snapshot.roundQuestion } }
      (true, g4.setCurrentTeam snapshot.currentTeam true)

/-- The forward mutating actions of claim C1, each taken with the validity
side condition under which the TypeScript method actually pushes a snapshot
(an invalid rank / no active team / no pending round returns early without
pushing, and the random team pick of a round advance is a parameter). -/
inductive GameAction where
  | handlePlayerAnswer (text : String) : GameAction
  | revealAnswerByNumber (number : Nat) : GameAction
  | addErrorForSelectedTeam : GameAction
  | setCurrentTeam (teamName : String) : GameAction
  | advanceToNextRound (pick : Bool) : GameAction
deriving DecidableEq, Repr

/-- Apply one forward action; `none` when its side condition fails. -/
def GameAction.apply : GameAction → Game → Option Game
  | GameAction.handlePlayerAnswer text, g => some (g.handlePlayerAnswer text)
  | GameAction.revealAnswerByNumber number, g =>
      match g.revealAnswerByNumber number with
      | (true, g1) => some g1
      | (false, _) => none
  | GameAction.addErrorForSelectedTeam, g =>
      match g.addErrorForSelectedTeam with
      | (true, g1) => some g1
      | (false, _) => none
  | GameAction.setCurrentTeam teamName, g => some (g.setCurrentTeam teamName false)
  | GameAction.advanceToNextRound pick, g =>
      match g.advanceToNextRound pick with
      | some (true, g1) => some g1
      | _ => none

/-- Apply a sequence of forward actions. -/
def applyActions : List GameAction → Game → Option Game
  | [], g => some g
  | a :: as, g =>
      match a.apply g with
      | some g1 => applyActions as g1
      | none => none

/-- Apply `undo()` n times (`undoTimes (n+1) g` undoes once more after
`undoTimes n g`). -/
def undoTimes : Nat → Game → Game
  | 0, g => g
  | n + 1, g => ((undoTimes n g).undo).2

/-- Store well-formedness: the cursor is in range (and 0 on an empty store) —
established by the constructor and preserved by every operation. -/
def StoreWF (s : QuestionStore) : Prop :=
  if s.questions.length = 0 then s.currentQuestionIndex = 0
  else s.currentQuestionIndex < s.questions.length

/-- Game well-formedness: well-formed store and pairwise distinct team names
(the real game has the two teams `blue` and `red`). -/
def GameWF (g : Game) : Prop :=
  StoreWF g.questionsStore ∧ (g.teams.map Team.name).Nodup

instance : DecidablePred StoreWF := fun s => by unfold StoreWF; infer_instance

instance : DecidablePred GameWF := fun g => by unfold GameWF; infer_instance

/-! Basic lemmas about the team-list helpers. -/

theorem addPointsByName_map_name (ts : List Team) (n : String) (p : Nat) :
    (addPointsByName ts n p).map Team.name = ts.map Team.name := by
  induction ts with
  | nil => rfl
  | cons t rest ih =>
      by_cases h : t.name = n <;>
        simp [addPointsByName, h, ih, Team.addPoints]

theorem addErrorByName_map_name (ts : List Team) (n : String) :
    (addErrorByName ts n).map Team.name = ts.map Team.name := by
  induction ts with
  | nil => rfl
  | cons t rest ih =>
      by_cases h : t.name = n <;>
        simp [addErrorByName, h, ih, Team.addError]

theorem updateTeamByName_cons_ne (t : Team) (ts : List Team) (st : Team)
    (h : t.name ≠ st.name) :
    updateTeamByName (t :: ts) st = t :: updateTeamByName ts st := by
  simp [updateTeamByName, h]

theorem updateTeamByName_cons_eq (t : Team) (ts : List Team) (st : Team)
    (h : t.name = st.name) :
    updateTeamByName (t :: ts) st = st :: ts := by
  simp only [updateTeamByName, if_pos h, Team.setPoints, Team.setErrors]
  have : ({ name := t.name, points := max 0 st.points, errors := max 0 st.errors } : Team) = st := by
    cases st; simp_all [Nat.max_eq_right (Nat.zero_le _)]
  rw [this]

theorem restoreTeams_cons_untouched (t : Team) (ts : List Team) (states : List Team)
    (h : ∀ st ∈ states, st.name ≠ t.name) :
    restoreTeams (t :: ts) states = t :: restoreTeams ts states := by
  induction states generalizing ts with
  | nil => rfl
  | cons s rest ih =>
      have hs : t.name ≠ s.name := fun hh => (h s (by simp)) hh.symm
      simp only [restoreTeams, List.foldl_cons] at *
      rw [updateTeamByName_cons_ne t ts s hs]
      exact ih (updateTeamByName ts s) (fun st hst => h st (by simp [hst]))

theorem restoreTeams_self (ts states : List Team)
    (hnames : ts.map Team.name = states.map Team.name)
    (hnodup : (states.map Team.name).Nodup) :
    restoreTeams ts states = states := by
  induction states generalizing ts with
  | nil =>
      cases ts with
      | nil => rfl
      | cons t ts => simp at hnames
  | cons s rest ih =>
      cases ts with
      | nil => simp at hnames
      | cons t ts =>
          simp only [List.map_cons, List.cons.injEq] at hnames
          simp only [List.map_cons, List.nodup_cons] at hnodup
          simp only [restoreTeams, List.foldl_cons]
          rw [updateTeamByName_cons_eq t ts s hnames.1]
          have huntouched : ∀ st ∈ rest, st.name ≠ s.name := by
            intro st hst heq
            exact hnodup.1 (heq ▸ List.mem_map_of_mem Team.name hst)
          have := restoreTeams_cons_untouched s ts rest huntouched
          simp only [restoreTeams] at this ih ⊢
          rw [this, ih ts hnames.2 hnodup.2]

/-! Frame lemmas: each mutation performed after a snapshot push leaves the
undo stack, the team names, and the question list untouched. -/

/-- Fields that every post-snapshot mutation preserves. -/
def Preserves (g g' : Game) : Prop :=
  g'.undoStack = g.undoStack ∧
  g'.teams.map Team.name = g.teams.map Team.name ∧
  g'.questionsStore.questions = g.questionsStore.questions ∧
  (StoreWF g.questionsStore → StoreWF g'.questionsStore)

theorem Preserves.refl (g : Game) : Preserves g g :=
  ⟨rfl, rfl, rfl, id⟩

theorem Preserves.trans {g1 g2 g3 : Game} (h12 : Preserves g1 g2) (h23 : Preserves g2 g3) :
    Preserves g1 g3 :=
  ⟨h23.1.trans h12.1, h23.2.1.trans h12.2.1, h23.2.2.1.trans h12.2.2.1,
   fun h => h23.2.2.2 (h12.2.2.2 h)⟩

theorem preserves_setCurrentTeam_skip (g : Game) (n : String) :
    Preserves g (g.setCurrentTeam n true) :=
  ⟨rfl, rfl, rfl, id⟩

theorem preserves_switchCurrentTeam (g : Game) :
    Preserves g g.switchCurrentTeam := by
  unfold Game.switchCurrentTeam
  cases g.teams.find? (fun team => team.name != g.currentTeam) with
  | none => exact Preserves.refl g
  | some t => exact preserves_setCurrentTeam_skip g t.name

theorem switchCurrentTeam_teams (g : Game) : g.switchCurrentTeam.teams = g.teams := by
  unfold Game.switchCurrentTeam
  cases g.teams.find? (fun team => team.name != g.currentTeam) with
  | none => rfl
  | some t => rfl

theorem preserves_finishRound (g : Game) : Preserves g g.finishRound := by
  unfold Game.finishRound
  split
  · dsimp only
    split
    · exact ⟨rfl, by simp [addPointsByName_map_name], rfl, id⟩
    · refine Preserves.trans (Preserves.trans ?_ (preserves_switchCurrentTeam _)) ⟨rfl, rfl, rfl, id⟩
      exact ⟨rfl, by simp [addPointsByName_map_name], rfl, id⟩
  · exact Preserves.trans (preserves_switchCurrentTeam g) ⟨rfl, rfl, rfl, id⟩

theorem preserves_setBoardAnswer (g : Game) (a : Answer) :
    Preserves g (g.setBoardAnswer a) := by
  unfold Game.setBoardAnswer
  split
  · exact Preserves.refl g
  · dsimp only
    split
    · exact Preserves.trans ⟨rfl, rfl, rfl, id⟩ (preserves_finishRound _)
    · exact ⟨rfl, rfl, rfl, id⟩

theorem preserves_setBoardError (g : Game) (n : String) :
    Preserves g (g.setBoardError n) := by
  simp only [Game.setBoardError]
  have h0 : Preserves g { g with teams := addErrorByName g.teams n } :=
    ⟨rfl, by simp [addErrorByName_map_name], rfl, id⟩
  split
  · refine Preserves.trans (Preserves.trans h0 (preserves_switchCurrentTeam _)) ?_
    split
    · split
      · exact ⟨rfl, by simp [addPointsByName_map_name], rfl, id⟩
      · refine Preserves.trans (Preserves.trans ?_ (preserves_switchCurrentTeam _)) ⟨rfl, rfl, rfl, id⟩
        exact ⟨rfl, by simp [addPointsByName_map_name], rfl, id⟩
    · exact Preserves.trans (preserves_switchCurrentTeam _) ⟨rfl, rfl, rfl, id⟩
  · split
    · exact Preserves.trans (Preserves.trans h0 (preserves_switchCurrentTeam _)) ⟨rfl, rfl, rfl, id⟩
    · exact h0

theorem getQuestion_questions (s : QuestionStore) :
    (s.getQuestion).2.questions = s.questions := by
  unfold QuestionStore.getQuestion
  split <;> rfl

theorem getQuestion_wf (s : QuestionStore) (h : StoreWF s) : StoreWF (s.getQuestion).2 := by
  unfold QuestionStore.getQuestion
  split
  · exact h
  · unfold StoreWF at *
    next hne =>
      simp only [if_neg hne] at *
      exact Nat.mod_lt _ (Nat.pos_of_ne_zero hne)

/-- What one successful forward action does to the bookkeeping state: it
pushes exactly one snapshot of the pre-state and preserves the team names,
the question list and store well-formedness. -/
def ActionShape (g g' : Game) : Prop :=
  g'.undoStack = g.mkSnapshot :: g.undoStack ∧
  g'.teams.map Team.name = g.teams.map Team.name ∧
  g'.questionsStore.questions = g.questionsStore.questions ∧
  (StoreWF g.questionsStore → StoreWF g'.questionsStore)

theorem shape_of_preserves_push {g g' : Game}
    (h : Preserves g.pushUndoSnapshot g') : ActionShape g g' :=
  ⟨h.1, h.2.1, h.2.2.1, h.2.2.2⟩

theorem action_shape (a : GameAction) (g g' : Game) (h : a.apply g = some g') :
    ActionShape g g' := by
  cases a with
  | handlePlayerAnswer text =>
      simp only [GameAction.apply, Option.some.injEq] at h
      subst h
      apply shape_of_preserves_push
      simp only [Game.handlePlayerAnswer]
      split
      · split
        · split
          · exact ⟨rfl, rfl, rfl, id⟩
          · exact ⟨rfl, rfl, rfl, id⟩
        · exact Preserves.refl _
      · split
        · exact preserves_setBoardAnswer _ _
        · exact preserves_setBoardError _ _
  | revealAnswerByNumber number =>
      simp only [GameAction.apply] at h
      split at h
      next g1 heq =>
        simp only [Option.some.injEq] at h
        subst h
        apply shape_of_preserves_push
        simp only [Game.revealAnswerByNumber] at heq
        split at heq
        · exact absurd heq (by simp)
        · split at heq
          · split at heq <;>
              { simp only [Prod.mk.injEq, true_and] at heq
                rw [← heq]
                exact ⟨rfl, rfl, rfl, id⟩ }
          · simp only [Prod.mk.injEq, true_and] at heq
            rw [← heq]
            exact preserves_setBoardAnswer _ _
      next heq => exact absurd h (by simp)
  | addErrorForSelectedTeam =>
      simp only [GameAction.apply] at h
      split at h
      next g1 heq =>
        simp only [Option.some.injEq] at h
        subst h
        apply shape_of_preserves_push
        simp only [Game.addErrorForSelectedTeam] at heq
        split at heq
        · exact absurd heq (by simp)
        · simp only [Prod.mk.injEq, true_and] at heq
          rw [← heq]
          exact preserves_setBoardError _ _
      next heq => exact absurd h (by simp)
  | setCurrentTeam teamName =>
      simp only [GameAction.apply, Option.some.injEq] at h
      subst h
      exact shape_of_preserves_push ⟨rfl, rfl, rfl, id⟩
  | advanceToNextRound pick =>
      simp only [GameAction.apply] at h
      split at h
      next g1 heq =>
        simp only [Option.some.injEq] at h
        subst h
        apply shape_of_preserves_push
        simp only [Game.advanceToNextRound] at heq
        split at heq
        · simp at heq
        · simp only [Option.map_eq_some'] at heq
          obtain ⟨g2, hg2, hpair⟩ := heq
          obtain ⟨-, rfl⟩ := Prod.mk.injEq .. ▸ (Prod.ext_iff.mp hpair.symm)
          simp only [Game.startNewRound] at hg2
          split at hg2
          next q store1 hq =>
            simp only [Game.setRandomTeam, Option.map_eq_some'] at hg2
            obtain ⟨team, -, rfl⟩ := hg2
            refine Preserves.trans ?_ (preserves_setCurrentTeam_skip _ _)
            refine ⟨rfl, by simp [Team.resetErrors], ?_, ?_⟩
            · have h1 : store1 = (g.pushUndoSnapshot.questionsStore.getQuestion).2 := by rw [hq]
              rw [h1, getQuestion_questions]
            · intro hwf
              have := getQuestion_wf g.pushUndoSnapshot.questionsStore hwf
              rwa [hq] at this
          next hq => exact absurd hg2 (by simp)
      next heq => exact absurd h (by simp)

theorem setCurrentQuestionIndex_restore (s' s : QuestionStore)
    (hq : s'.questions = s.questions) (hwf : StoreWF s) :
    s'.setCurrentQuestionIndex s.currentQuestionIndex = s := by
  obtain ⟨qs', i'⟩ := s'
  obtain ⟨qs, i⟩ := s
  simp only at hq
  subst hq
  unfold StoreWF at hwf
  unfold QuestionStore.setCurrentQuestionIndex
  simp only at hwf ⊢
  split
  next hlen =>
    rw [if_pos hlen] at hwf
    rw [hwf]
  next hlen =>
    rw [if_neg hlen] at hwf
    have h1 : i % qs'.length = i := Nat.mod_eq_of_lt hwf
    rw [Nat.add_mod_right, h1, h1]

theorem mkSnapshot_teamState (g : Game) : g.mkSnapshot.teamState = g.teams := by
  simp [Game.mkSnapshot]

theorem undo_restore (g g' : Game)
    (hstack : g'.undoStack = g.mkSnapshot :: g.undoStack)
    (hnames : g'.teams.map Team.name = g.teams.map Team.name)
    (hq : g'.questionsStore.questions = g.questionsStore.questions)
    (hwf : StoreWF g.questionsStore)
    (hnodup : (g.teams.map Team.name).Nodup) :
    g'.undo = (true, g) := by
  have hteams : restoreTeams g'.teams g.mkSnapshot.teamState = g.teams := by
    rw [mkSnapshot_teamState]
    exact restoreTeams_self _ _ hnames hnodup
  have hstore : g'.questionsStore.setCurrentQuestionIndex g.mkSnapshot.questionsStoreIndex
      = g.questionsStore :=
    setCurrentQuestionIndex_restore _ _ hq hwf
  unfold Game.undo
  rw [hstack]
  dsimp only [Game.setCurrentTeam]
  simp only [Prod.mk.injEq, true_and]
  rw [hteams, hstore]
  show Game.mk g.teams g.questionsStore g.mkSnapshot.roundCount g.mkSnapshot.pendingNextRound
    g.undoStack ⟨g.mkSnapshot.roundRight, g.mkSnapshot.roundStatus, g.mkSnapshot.roundPoints,
      g.mkSnapshot.revealed, g.mkSnapshot.roundQuestion⟩ g.mkSnapshot.currentTeam = g
  simp only [Game.mkSnapshot]

/-- C1: For every sequence of forward mutating actions (handlePlayerAnswer,
revealAnswerByNumber with a valid rank, addErrorForSelectedTeam with an
active team, setCurrentTeam, advanceToNextRound when pending) followed by an
equal number of `undo()` calls, the final game state — round question,
revealed set, status, points, right counter, both teams' points and error
counts, active team, round counter, pendingNextRound flag, and
question-store cursor (all of them fields of `Game`) — equals the state
before the first forward action. -/
theorem undo_exactness (as : List GameAction) (g g' : Game)
    (hwf : GameWF g) (h : applyActions as g = some g') :
    undoTimes as.length g' = g := by
  induction as generalizing g with
  | nil =>
      simp only [applyActions, Option.some.injEq] at h
      subst h
      rfl
  | cons a as ih =>
      simp only [applyActions] at h
      split at h
      next g1 heq =>
        have hshape := action_shape a g g1 heq
        have hwf1 : GameWF g1 := ⟨hshape.2.2.2 hwf.1, by rw [hshape.2.1]; exact hwf.2⟩
        have hrest := ih g1 hwf1 h
        have hundo : g1.undo = (true, g) :=
          undo_restore g g1 hshape.1 hshape.2.1 hshape.2.2.1 hwf.1 hwf.2
        simp only [List.length_cons, undoTimes, hrest, hundo]
      next => exact absurd h (by simp)

/-! Concrete fixtures used by the witnesses and counterexamples below. -/

/-- The example question of spec §8: answers `[{lp:1, 40pts}, {lp:2, 30pts}]`. -/
def q1 : Question := { name := "q", answers := [⟨"kot", 1, 40⟩, ⟨"pies", 2, 30⟩] }

/-- A fresh two-team game on `q1`, blue active. -/
def gEx : Game :=
  { teams := [⟨"blue", 0, 0⟩, ⟨"red", 0, 0⟩],
    questionsStore := { questions := [q1], currentQuestionIndex := 0 },
    roundCount := 1, pendingNextRound := false, undoStack := [],
    round := Round.make q1, currentTeam := "blue" }

/-- C1 witness: a concrete three-action run (an awarded reveal, a manual
team change, a manual error) undone three times restores the initial state. -/
theorem undo_exactness_witness :
    GameWF gEx ∧
    applyActions [GameAction.handlePlayerAnswer "kot", GameAction.setCurrentTeam "red",
      GameAction.addErrorForSelectedTeam] gEx =
      some ((((gEx.handlePlayerAnswer "kot").setCurrentTeam "red" false).addErrorForSelectedTeam).2) ∧
    undoTimes 3 ((((gEx.handlePlayerAnswer "kot").setCurrentTeam "red" false).addErrorForSelectedTeam).2) = gEx :=
  ⟨by decide, by decide,
   undo_exactness [GameAction.handlePlayerAnswer "kot", GameAction.setCurrentTeam "red",
      GameAction.addErrorForSelectedTeam] gEx _ (by decide) (by decide)⟩

/-- C8: Revealing a rank that is already in the round's revealed set — via
either the awarding path (`setBoardAnswer`) or the non-awarding path
(`revealAnswerOnly`) — is a silent no-op: the whole game state (hence
round.points, the right counter, the revealed set, team points, and round
status) is unchanged by the second reveal of the same rank. -/
theorem reveal_idempotent (g : Game) (a : Answer) (h : a.lp ∈ g.round.revealed) :
    g.setBoardAnswer a = g ∧ g.round.revealAnswerOnly a = g.round := by
  constructor
  · unfold Game.setBoardAnswer
    rw [if_pos h]
  · unfold Round.revealAnswerOnly
    rw [if_pos h]

/-- A game state in which rank 1 of `q1` is already revealed (and credited). -/
def gRev : Game :=
  { gEx with round := { right := 1, status := ROUND_STATUS.DEFAULT, points := 40,
                        revealed := [1], question := q1 } }

/-- C8 witness: re-revealing rank 1 of `gRev` changes nothing on either path. -/
theorem reveal_idempotent_witness :
    gRev.setBoardAnswer ⟨"kot", 1, 40⟩ = gRev ∧
    gRev.round.revealAnswerOnly ⟨"kot", 1, 40⟩ = gRev.round :=
  reveal_idempotent gRev ⟨"kot", 1, 40⟩ (by decide)

/-- C9: A `handlePlayerAnswer` call whose guess matches no answer while no
team is active changes nothing but the undo stack, which grows by exactly
one snapshot of the pre-state (the result is literally `pushUndoSnapshot` of
the pre-state, which only touches `undoStack`); a subsequent `undo()`
succeeds and restores the identical state. -/
theorem noop_answer_frame (g : Game) (text : String)
    (hteam : g.getCurrentTeam = none)
    (hmatch : g.resolvePlayerAnswer text = none)
    (hwf : GameWF g) :
    g.handlePlayerAnswer text = g.pushUndoSnapshot ∧
    (g.handlePlayerAnswer text).undo = (true, g) := by
  have e1 : g.pushUndoSnapshot.resolvePlayerAnswer text = none := hmatch
  have e2 : g.pushUndoSnapshot.getCurrentTeam = none := hteam
  have h1 : g.handlePlayerAnswer text = g.pushUndoSnapshot := by
    simp only [Game.handlePlayerAnswer, e1, e2]
  refine ⟨h1, ?_⟩
  rw [h1]
  exact undo_restore g g.pushUndoSnapshot rfl rfl rfl hwf.1 hwf.2

/-- The fresh example game with no team selected. -/
def gNoTeam : Game := { gEx with currentTeam := "" }

/-- C9 witness: a non-matching guess with no active team at `gNoTeam`. -/
theorem noop_answer_frame_witness :
    gNoTeam.handlePlayerAnswer "xyz" = gNoTeam.pushUndoSnapshot ∧
    (gNoTeam.handlePlayerAnswer "xyz").undo = (true, gNoTeam) :=
  noop_answer_frame gNoTeam "xyz" (by decide) (by decide) (by decide)

/-! Lemmas about name lookups in the team list. -/

theorem getCurrentTeam_eq_some {g : Game} {t : Team} (h : g.getCurrentTeam = some t) :
    g.teams.find? (fun x => x.name == g.currentTeam) = some t ∧ t.name = g.currentTeam := by
  unfold Game.getCurrentTeam at h
  split at h
  · exact absurd h (by simp)
  · exact ⟨h, by simpa using List.find?_some h⟩

theorem find?_addPointsByName {ts : List Team} {n : String} {u : Team} (p : Nat)
    (h : ts.find? (fun x => x.name == n) = some u) :
    (addPointsByName ts n p).find? (fun x => x.name == n) = some (u.addPoints p) := by
  induction ts with
  | nil => simp [List.find?] at h
  | cons t rest ih =>
      by_cases hn : t.name = n
      · rw [List.find?_cons_of_pos _ (by simp [hn])] at h
        simp only [Option.some.injEq] at h
        subst h
        simp only [addPointsByName, if_pos hn]
        rw [List.find?_cons_of_pos _ (by simp [Team.addPoints, hn])]
      · rw [List.find?_cons_of_neg _ (by simp [hn])] at h
        simp only [addPointsByName, if_neg hn]
        rw [List.find?_cons_of_neg _ (by simp [hn])]
        exact ih h

theorem find?_self_of_find?_ne {ts : List Team} {c : String} {u : Team}
    (h : ts.find? (fun x => x.name != c) = some u) :
    ts.find? (fun x => x.name == u.name) = some u := by
  have hu : u.name ≠ c := by simpa using List.find?_some h
  induction ts with
  | nil => simp [List.find?] at h
  | cons t rest ih =>
      by_cases hn : t.name = c
      · rw [List.find?_cons_of_neg _ (by simp [hn])] at h
        rw [List.find?_cons_of_neg _ (by simp [hn]; exact fun hh => hu hh.symm)]
        exact ih h
      · rw [List.find?_cons_of_pos _ (by simp [hn])] at h
        simp only [Option.some.injEq] at h
        subst h
        rw [List.find?_cons_of_pos _ (by simp)]

theorem find?_addErrorByName_opponent {ts : List Team} {c : String} {u : Team}
    (h : ts.find? (fun x => x.name != c) = some u) :
    (addErrorByName ts c).find? (fun x => x.name == u.name) = some u := by
  have hu : u.name ≠ c := by simpa using List.find?_some h
  induction ts with
  | nil => simp [List.find?] at h
  | cons t rest ih =>
      by_cases hn : t.name = c
      · rw [List.find?_cons_of_neg _ (by simp [hn])] at h
        simp only [addErrorByName, if_pos hn]
        rw [List.find?_cons_of_neg _ (by simp [Team.addError, hn]; exact fun hh => hu hh.symm)]
        exact find?_self_of_find?_ne h
      · rw [List.find?_cons_of_pos _ (by simp [hn])] at h
        simp only [Option.some.injEq] at h
        subst h
        simp only [addErrorByName, if_neg hn]
        rw [List.find?_cons_of_pos _ (by simp)]

theorem find?_ne_addErrorByName (ts : List Team) (n : String) :
    (addErrorByName ts n).find? (fun x => x.name != n) = ts.find? (fun x => x.name != n) := by
  cases ts with
  | nil => rfl
  | cons t rest =>
      by_cases hn : t.name = n
      · simp only [addErrorByName, if_pos hn]
        rw [List.find?_cons_of_neg _ (by simp [Team.addError, hn]),
            List.find?_cons_of_neg _ (by simp [hn])]
      · simp only [addErrorByName, if_neg hn]
        rw [List.find?_cons_of_pos _ (by simp [hn]), List.find?_cons_of_pos _ (by simp [hn])]

theorem pointsOfTeam_congr {g1 g2 : Game} (h : g1.teams = g2.teams) (n : String) :
    pointsOfTeam g1 n = pointsOfTeam g2 n := by
  unfold pointsOfTeam
  rw [h]

theorem finishRound_award (g : Game) (t : Team) (h : g.getCurrentTeam = some t) :
    pointsOfTeam g.finishRound t.name = t.points + g.round.points * multiplier g.roundCount := by
  obtain ⟨hfind, hname⟩ := getCurrentTeam_eq_some h
  simp only [Game.finishRound]
  rw [h]
  dsimp only
  have hg1 : pointsOfTeam { g with teams := addPointsByName g.teams g.currentTeam (g.round.points * multiplier g.roundCount) } t.name = t.points + g.round.points * multiplier g.roundCount := by
    unfold pointsOfTeam
    dsimp only
    rw [hname, find?_addPointsByName _ hfind]
    simp [Team.addPoints]
  split
  · exact hg1
  · refine Eq.trans (pointsOfTeam_congr ?_ t.name) hg1
    exact switchCurrentTeam_teams _

theorem setBoardError_stolen_award (g : Game) (u : Team)
    (hst : g.round.status = ROUND_STATUS.STOLEN)
    (hop : g.teams.find? (fun x => x.name != g.currentTeam) = some u)
    (hu : u.name ≠ "") :
    pointsOfTeam (g.setBoardError g.currentTeam) u.name
      = u.points + g.round.points * multiplier g.roundCount := by
  have hfind2 : (addErrorByName g.teams g.currentTeam).find? (fun x => x.name == u.name) = some u :=
    find?_addErrorByName_opponent hop
  simp only [Game.setBoardError]
  have hc : (({ g with teams := addErrorByName g.teams g.currentTeam } : Game).round.status == ROUND_STATUS.STOLEN) = true := by
    dsimp only
    rw [hst]
    rfl
  rw [if_pos hc]
  have hswitch : ({ g with teams := addErrorByName g.teams g.currentTeam } : Game).switchCurrentTeam = { g with teams := addErrorByName g.teams g.currentTeam, currentTeam := u.name } := by
    unfold Game.switchCurrentTeam
    dsimp only
    rw [find?_ne_addErrorByName, hop]
    rfl
  rw [hswitch]
  dsimp only
  have hget : ({ g with teams := addErrorByName g.teams g.currentTeam, currentTeam := u.name } : Game).getCurrentTeam = some u := by
    unfold Game.getCurrentTeam
    dsimp only
    rw [if_neg hu]
    exact hfind2
  rw [hget]
  dsimp only
  have hpts : pointsOfTeam { g with teams := addPointsByName (addErrorByName g.teams g.currentTeam) u.name (g.round.points * multiplier g.roundCount), currentTeam := u.name } u.name = u.points + g.round.points * multiplier g.roundCount := by
    unfold pointsOfTeam
    dsimp only
    rw [find?_addPointsByName _ hfind2]
    simp [Team.addPoints]
  split
  · exact hpts
  · refine Eq.trans (pointsOfTeam_congr ?_ u.name) hpts
    exact switchCurrentTeam_teams _

/-- C2: When a round completes — the right counter reaching the question's
answer count triggers `finishRound`, and an error resolving a STOLEN round
runs the same award inline — the team credited (the active team at the award
moment) gains exactly `round.points × multiplier(roundCount)`, with
multiplier 2 iff roundCount = 4, 3 iff roundCount = 5, and 1 otherwise.
Both equalities hold with no condition on the team's previous total: the
award is applied unconditionally and the ≥400 win check happens only after
it, so a total can exceed 400 (see the witness, where a team at 500 points
is credited again). -/
theorem round_award_correct (g : Game) :
    (∀ t, g.getCurrentTeam = some t →
       pointsOfTeam g.finishRound t.name
         = t.points + g.round.points * multiplier g.roundCount) ∧
    (∀ u, g.round.status = ROUND_STATUS.STOLEN →
       g.teams.find? (fun x => x.name != g.currentTeam) = some u → u.name ≠ "" →
       pointsOfTeam (g.setBoardError g.currentTeam) u.name
         = u.points + g.round.points * multiplier g.roundCount) :=
  ⟨fun t ht => finishRound_award g t ht,
   fun u h1 h2 h3 => setBoardError_stolen_award g u h1 h2 h3⟩

/-- A game whose active team already holds 500 points, in round 5, with 70
accumulated round points. -/
def gEx2 : Game :=
  { teams := [⟨"blue", 500, 0⟩, ⟨"red", 0, 0⟩],
    questionsStore := { questions := [q1], currentQuestionIndex := 0 },
    roundCount := 5, pendingNextRound := false, undoStack := [],
    round := { right := 2, status := ROUND_STATUS.DEFAULT, points := 70, revealed := [1, 2], question := q1 },
    currentTeam := "blue" }

/-- A STOLEN round in round 4 with 30 accumulated points, red (the stealer)
active, blue the opponent at 100 points. -/
def gSt : Game :=
  { teams := [⟨"blue", 100, 3⟩, ⟨"red", 50, 2⟩],
    questionsStore := { questions := [q1], currentQuestionIndex := 0 },
    roundCount := 4, pendingNextRound := false, undoStack := [],
    round := { right := 1, status := ROUND_STATUS.STOLEN, points := 30, revealed := [1], question := q1 },
    currentTeam := "red" }

/-- C2 witness: the round-5 finish awards 70 × 3 on top of 500 (overshooting
400), and the round-4 steal resolution awards 30 × 2 to the opponent. -/
theorem round_award_correct_witness :
    pointsOfTeam gEx2.finishRound "blue" = 500 + 70 * multiplier 5 ∧
    pointsOfTeam (gSt.setBoardError gSt.currentTeam) "blue" = 100 + 30 * multiplier 4 :=
  ⟨(round_award_correct gEx2).1 ⟨"blue", 500, 0⟩ (by decide),
   (round_award_correct gSt).2 ⟨"blue", 100, 3⟩ (by decide) (by decide) (by decide)⟩

theorem switchCurrentTeam_round (g : Game) : g.switchCurrentTeam.round = g.round := by
  unfold Game.switchCurrentTeam
  cases g.teams.find? (fun team => team.name != g.currentTeam) with
  | none => rfl
  | some t => rfl

theorem finishRound_round (g : Game) : g.finishRound.round = g.round := by
  simp only [Game.finishRound]
  split
  · split
    · rfl
    · exact switchCurrentTeam_round _
  · exact switchCurrentTeam_round _

theorem finishRound_pending (g : Game) (t : Team)
    (h : g.getCurrentTeam = some t) (hpend : g.pendingNextRound = false) :
    g.finishRound.pendingNextRound
      = decide (t.points + g.round.points * multiplier g.roundCount < 400) := by
  simp only [Game.finishRound]
  rw [h]
  dsimp only
  split
  next hge => simp [hpend, Nat.not_lt.mpr hge]
  next hlt => simp [Nat.lt_of_not_le fun hh => hlt hh]

theorem setBoardError_default_eq (g : Game) (n : String)
    (h : g.round.status = ROUND_STATUS.DEFAULT) :
    g.setBoardError n =
      (if errorsOfTeam { g with teams := addErrorByName g.teams n } n = 3
       then { ({ g with teams := addErrorByName g.teams n } : Game).switchCurrentTeam with round := { g.round with status := ROUND_STATUS.STOLEN } }
       else { g with teams := addErrorByName g.teams n }) := by
  simp only [Game.setBoardError]
  rw [if_neg (by simp [h]; decide)]

theorem setBoardError_stolen_round (g : Game) (n : String)
    (h : g.round.status = ROUND_STATUS.STOLEN) :
    (g.setBoardError n).round = g.round := by
  simp only [Game.setBoardError]
  rw [if_pos (by simp [h]; decide)]
  split
  · split
    · simp [switchCurrentTeam_round]
    · simp [switchCurrentTeam_round]
  · simp [switchCurrentTeam_round]

theorem setBoardAnswer_status (g : Game) (a : Answer) :
    (g.setBoardAnswer a).round.status = g.round.status := by
  unfold Game.setBoardAnswer
  split
  · rfl
  · dsimp only
    split
    · rw [finishRound_round]
    · rfl

theorem setBoardError_third_two (g : Game) (a b : Team)
    (hteams : g.teams = [a, b]) (hab : a.name ≠ b.name)
    (hcur : g.currentTeam = a.name) (hst : g.round.status = ROUND_STATUS.DEFAULT)
    (herr : a.errors + 1 = 3) :
    g.setBoardError a.name = { g with teams := [a.addError, b], round := { g.round with status := ROUND_STATUS.STOLEN }, currentTeam := b.name } := by
  have e1 : addErrorByName g.teams a.name = [a.addError, b] := by
    rw [hteams]; simp [addErrorByName]
  rw [setBoardError_default_eq g a.name hst, e1]
  have e2 : errorsOfTeam { g with teams := [a.addError, b] } a.name = a.errors + 1 := by
    unfold errorsOfTeam
    dsimp only
    rw [List.find?_cons_of_pos _ (by simp [Team.addError])]
    simp [Team.addError]
  rw [e2, if_pos herr]
  have e3 : ({ g with teams := [a.addError, b] } : Game).switchCurrentTeam = { g with teams := [a.addError, b], currentTeam := b.name } := by
    unfold Game.switchCurrentTeam
    have e4 : List.find? (fun team => team.name != ({ g with teams := [a.addError, b] } : Game).currentTeam) ({ g with teams := [a.addError, b] } : Game).teams = some b := by
      dsimp only
      rw [hcur]
      rw [List.find?_cons_of_neg _ (by simp [Team.addError])]
      rw [List.find?_cons_of_pos _ (by simp [bne_iff_ne]; exact fun hh => hab hh.symm)]
    rw [e4]
    rfl
  rw [e3]

theorem setBoardError_nonthird_two (g : Game) (a b : Team)
    (hteams : g.teams = [a, b])
    (hst : g.round.status = ROUND_STATUS.DEFAULT)
    (herr : a.errors + 1 ≠ 3) :
    g.setBoardError a.name = { g with teams := [a.addError, b] } := by
  have e1 : addErrorByName g.teams a.name = [a.addError, b] := by
    rw [hteams]; simp [addErrorByName]
  rw [setBoardError_default_eq g a.name hst, e1]
  have e2 : errorsOfTeam { g with teams := [a.addError, b] } a.name = a.errors + 1 := by
    unfold errorsOfTeam
    dsimp only
    rw [List.find?_cons_of_pos _ (by simp [Team.addError])]
    simp [Team.addError]
  rw [e2, if_neg herr]

theorem setBoardError_stolen_eq_two (g : Game) (a b : Team)
    (hteams : g.teams = [a, b]) (hab : a.name ≠ b.name) (ha : a.name ≠ "")
    (hcur : g.currentTeam = b.name) (hst : g.round.status = ROUND_STATUS.STOLEN) :
    g.setBoardError b.name =
      (if a.points + g.round.points * multiplier g.roundCount ≥ 400
       then { g with teams := [a.addPoints (g.round.points * multiplier g.roundCount), b.addError], currentTeam := a.name }
       else { g with teams := [a.addPoints (g.round.points * multiplier g.roundCount), b.addError], currentTeam := b.name, pendingNextRound := true }) := by
  have e1 : addErrorByName g.teams b.name = [a, b.addError] := by
    rw [hteams]
    simp [addErrorByName, hab]
  simp only [Game.setBoardError, e1]
  rw [if_pos (by simp [hst]; decide)]
  have e2 : ({ g with teams := [a, b.addError] } : Game).switchCurrentTeam = { g with teams := [a, b.addError], currentTeam := a.name } := by
    unfold Game.switchCurrentTeam
    have e2a : List.find? (fun team => team.name != ({ g with teams := [a, b.addError] } : Game).currentTeam) ({ g with teams := [a, b.addError] } : Game).teams = some a := by
      dsimp only
      rw [hcur]
      rw [List.find?_cons_of_pos _ (by simp [bne_iff_ne]; exact hab)]
    rw [e2a]
    rfl
  rw [e2]
  have e3 : ({ g with teams := [a, b.addError], currentTeam := a.name } : Game).getCurrentTeam = some a := by
    unfold Game.getCurrentTeam
    dsimp only
    rw [if_neg ha]
    rw [List.find?_cons_of_pos _ (by simp)]
  rw [e3]
  dsimp only
  have e4 : addPointsByName [a, b.addError] a.name (g.round.points * multiplier g.roundCount) = [a.addPoints (g.round.points * multiplier g.roundCount), b.addError] := by
    simp [addPointsByName]
  rw [e4]
  by_cases hC : a.points + g.round.points * multiplier g.roundCount ≥ 400
  · rw [if_pos hC, if_pos hC]
  · rw [if_neg hC, if_neg hC]
    have e5 : ({ g with teams := [a.addPoints (g.round.points * multiplier g.roundCount), b.addError], currentTeam := a.name } : Game).switchCurrentTeam = { g with teams := [a.addPoints (g.round.points * multiplier g.roundCount), b.addError], currentTeam := b.name } := by
      unfold Game.switchCurrentTeam
      have e5a : List.find? (fun team => team.name != ({ g with teams := [a.addPoints (g.round.points * multiplier g.roundCount), b.addError], currentTeam := a.name } : Game).currentTeam) ({ g with teams := [a.addPoints (g.round.points * multiplier g.roundCount), b.addError], currentTeam := a.name } : Game).teams = some b.addError := by
        dsimp only
        rw [List.find?_cons_of_neg _ (by simp [Team.addPoints])]
        rw [List.find?_cons_of_pos _ (by simp [Team.addError, bne_iff_ne]; exact fun hh => hab hh.symm)]
      rw [e5a]
      rfl
    rw [e5]

theorem setBoardAnswer_stolen_pending_two (g : Game) (a b : Team) (ans : Answer)
    (hteams : g.teams = [a, b]) (hab : a.name ≠ b.name) (hb : b.name ≠ "")
    (hcur : g.currentTeam = b.name) (hst : g.round.status = ROUND_STATUS.STOLEN)
    (hpend : g.pendingNextRound = false) (hfresh : ans.lp ∉ g.round.revealed) :
    (g.setBoardAnswer ans).pendingNextRound
      = decide (b.points + (g.round.points + ans.points) * multiplier g.roundCount < 400) := by
  unfold Game.setBoardAnswer
  rw [if_neg hfresh]
  dsimp only
  rw [if_pos (by simp [Round.checkFinish, hst]; exact Or.inr rfl)]
  have hget : ({ g with round := { g.round with revealed := g.round.revealed ++ [ans.lp], right := g.round.right + 1, points := g.round.points + ans.points } } : Game).getCurrentTeam = some b := by
    unfold Game.getCurrentTeam
    dsimp only
    rw [hcur, if_neg hb, hteams]
    rw [List.find?_cons_of_neg _ (by simp; exact hab)]
    rw [List.find?_cons_of_pos _ (by simp)]
  rw [finishRound_pending _ b hget hpend]

/-- A STOLEN round whose resolution lifts the opponent to 410 ≥ 400 points:
blue holds 390, the accumulated 20 round points go to blue when red errs. -/
def gStealWin : Game :=
  { teams := [⟨"blue", 390, 0⟩, ⟨"red", 0, 2⟩],
    questionsStore := { questions := [q1], currentQuestionIndex := 0 },
    roundCount := 1, pendingNextRound := false, undoStack := [],
    round := { right := 1, status := ROUND_STATUS.STOLEN, points := 20, revealed := [1], question := q1 },
    currentTeam := "red" }

/-- C3 counterexample: an error event processed while the round status is
STOLEN whose award brings the credited team to ≥400 points ends with
`pendingNextRound = false` — refuting the claim that every reveal or error
processed while STOLEN leaves `pendingNextRound == true` by the end of the
operation. -/
theorem steal_pending_counterexample :
    gStealWin.round.status = ROUND_STATUS.STOLEN ∧
    gStealWin.pendingNextRound = false ∧
    (gStealWin.setBoardError gStealWin.currentTeam).pendingNextRound = false := by
  refine ⟨rfl, rfl, ?_⟩
  decide

/-- C3 (amended): in a two-team round, (i) the active team's error count
reaching exactly 3 while the status is DEFAULT flips the status to STOLEN and
swaps the active team; (ii) a non-third error while DEFAULT changes neither;
(iii) once STOLEN, no further error or reveal event ever leaves the STOLEN
status, so the flip happens exactly once per round; (iv) an error processed
while STOLEN ends with `pendingNextRound = true` if and only if the award
leaves the credited opponent below 400 points (on a win the early return
skips the flag, which stays false); (v) likewise an awarding reveal of a
fresh rank processed while STOLEN, with the award going to the (stealing)
active team and including the revealed answer's points. -/
theorem steal_transition_amended (g : Game) (a b : Team)
    (hteams : g.teams = [a, b]) (hab : a.name ≠ b.name)
    (ha : a.name ≠ "") (hb : b.name ≠ "")
    (hpend : g.pendingNextRound = false) :
    (g.round.status = ROUND_STATUS.DEFAULT → g.currentTeam = a.name → a.errors + 1 = 3 →
       (g.setBoardError a.name).round.status = ROUND_STATUS.STOLEN ∧
       (g.setBoardError a.name).currentTeam = b.name) ∧
    (g.round.status = ROUND_STATUS.DEFAULT → a.errors + 1 ≠ 3 →
       (g.setBoardError a.name).round.status = ROUND_STATUS.DEFAULT ∧
       (g.setBoardError a.name).currentTeam = g.currentTeam) ∧
    (g.round.status = ROUND_STATUS.STOLEN →
       (∀ n, (g.setBoardError n).round.status = ROUND_STATUS.STOLEN) ∧
       (∀ ans, (g.setBoardAnswer ans).round.status = ROUND_STATUS.STOLEN)) ∧
    (g.round.status = ROUND_STATUS.STOLEN → g.currentTeam = b.name →
       (g.setBoardError b.name).pendingNextRound
         = decide (a.points + g.round.points * multiplier g.roundCount < 400)) ∧
    (g.round.status = ROUND_STATUS.STOLEN → g.currentTeam = b.name →
       ∀ ans, ans.lp ∉ g.round.revealed →
       (g.setBoardAnswer ans).pendingNextRound
         = decide (b.points + (g.round.points + ans.points) * multiplier g.roundCount < 400)) := by
  refine ⟨?_, ?_, ?_, ?_, ?_⟩
  · intro hst hcur herr
    rw [setBoardError_third_two g a b hteams hab hcur hst herr]
    exact ⟨rfl, rfl⟩
  · intro hst herr
    rw [setBoardError_nonthird_two g a b hteams hst herr]
    exact ⟨hst, rfl⟩
  · intro hst
    refine ⟨fun n => ?_, fun ans => ?_⟩
    · rw [setBoardError_stolen_round g n hst]
      exact hst
    · rw [setBoardAnswer_status g ans]
      exact hst
  · intro hst hcur
    rw [setBoardError_stolen_eq_two g a b hteams hab ha hcur hst]
    by_cases hC : a.points + g.round.points * multiplier g.roundCount ≥ 400
    · rw [if_pos hC]
      simp [hpend, Nat.not_lt.mpr hC]
    · rw [if_neg hC]
      simp [Nat.lt_of_not_le fun hh => hC hh]
  · intro hst hcur ans hfresh
    exact setBoardAnswer_stolen_pending_two g a b ans hteams hab hb hcur hst hpend hfresh

/-- C3 witness: at `gSt` (a STOLEN round, red active) the amended theorem
yields that red's error sets `pendingNextRound` (blue's 100 + 30×2 < 400)
and that the status stays STOLEN. -/
theorem steal_transition_amended_witness :
    (gSt.setBoardError "red").pendingNextRound
      = decide (100 + 30 * multiplier 4 < 400) ∧
    (gSt.setBoardError "red").round.status = ROUND_STATUS.STOLEN := by
  have h := steal_transition_amended gSt ⟨"blue", 100, 3⟩ ⟨"red", 50, 2⟩
    (by decide) (by decide) (by decide) (by decide) (by decide)
  exact ⟨h.2.2.2.1 rfl rfl, (h.2.2.1 rfl).1 "red"⟩

/-- A mid-round state: blue active with no errors, 20 accumulated round
points, DEFAULT status. -/
def gC5 : Game :=
  { teams := [⟨"blue", 0, 0⟩, ⟨"red", 0, 0⟩],
    questionsStore := { questions := [q1], currentQuestionIndex := 0 },
    roundCount := 1, pendingNextRound := false, undoStack := [],
    round := { right := 1, status := ROUND_STATUS.DEFAULT, points := 20, revealed := [1], question := q1 },
    currentTeam := "blue" }

/-- Blue errs three times (entering STOLEN, red active), then red errs once. -/
def gC5run : Game :=
  ((((gC5.addErrorForSelectedTeam).2.addErrorForSelectedTeam).2.addErrorForSelectedTeam).2.addErrorForSelectedTeam).2

/-- C5 counterexample: after blue's three errors and red's steal error the
round resolves with `pendingNextRound = true` and the original team (blue) is
credited the round points, but the active team ends up being "red" — the
opponent/stealer — not the original team "blue" as the claim states. -/
theorem steal_resolution_team_counterexample :
    gC5run.pendingNextRound = true ∧
    gC5run.currentTeam = "red" ∧
    ("red" : String) ≠ "blue" ∧
    pointsOfTeam gC5run "blue" = 20 := by
  decide

/-- C5 (amended): if the active team errs three times while the round status
is DEFAULT (entering STOLEN with the opponent active) and the opponent then
errs once, the steal resolves by crediting the multiplied round points to
the original team.  When the credited total stays below 400 the round ends
with `pendingNextRound = true` and the active team is the opponent (the
stealer), not the original team; when it reaches ≥400 the win early-return
fires instead — `pendingNextRound` stays false and the original (now
winning) team remains active. -/
theorem steal_resolution_amended (g : Game) (a b : Team)
    (hteams : g.teams = [a, b]) (hab : a.name ≠ b.name) (ha : a.name ≠ "")
    (hcur : g.currentTeam = a.name) (hst : g.round.status = ROUND_STATUS.DEFAULT)
    (ha0 : a.errors = 0) (hpend : g.pendingNextRound = false) :
    ((((g.setBoardError a.name).setBoardError a.name).setBoardError a.name).setBoardError b.name).pendingNextRound
      = decide (a.points + g.round.points * multiplier g.roundCount < 400) ∧
    ((((g.setBoardError a.name).setBoardError a.name).setBoardError a.name).setBoardError b.name).currentTeam
      = (if a.points + g.round.points * multiplier g.roundCount < 400 then b.name else a.name) ∧
    pointsOfTeam ((((g.setBoardError a.name).setBoardError a.name).setBoardError a.name).setBoardError b.name) a.name
      = a.points + g.round.points * multiplier g.roundCount := by
  have E1 : g.setBoardError a.name = { g with teams := [a.addError, b] } :=
    setBoardError_nonthird_two g a b hteams hst (by simp [ha0])
  have E2 : ({ g with teams := [a.addError, b] } : Game).setBoardError a.name
      = { g with teams := [a.addError.addError, b] } :=
    setBoardError_nonthird_two { g with teams := [a.addError, b] } a.addError b rfl hst
      (by simp [Team.addError, ha0])
  have E3 : ({ g with teams := [a.addError.addError, b] } : Game).setBoardError a.name
      = { g with teams := [a.addError.addError.addError, b], round := { g.round with status := ROUND_STATUS.STOLEN }, currentTeam := b.name } :=
    setBoardError_third_two { g with teams := [a.addError.addError, b] } a.addError.addError b rfl
      hab hcur hst (by simp [Team.addError, ha0])
  rw [E1, E2, E3,
      setBoardError_stolen_eq_two _ a.addError.addError.addError b rfl hab ha rfl rfl]
  by_cases hC : a.points + g.round.points * multiplier g.roundCount ≥ 400
  · have hCsyn : a.addError.addError.addError.points + ({ g with teams := [a.addError.addError.addError, b], round := { g.round with status := ROUND_STATUS.STOLEN }, currentTeam := b.name } : Game).round.points * multiplier ({ g with teams := [a.addError.addError.addError, b], round := { g.round with status := ROUND_STATUS.STOLEN }, currentTeam := b.name } : Game).roundCount ≥ 400 := hC
    rw [if_pos hCsyn]
    refine ⟨?_, ?_, ?_⟩
    · simp [hpend, Nat.not_lt.mpr hC]
    · rw [if_neg (Nat.not_lt.mpr hC)]
      rfl
    · unfold pointsOfTeam
      dsimp only
      rw [List.find?_cons_of_pos _ (by simp [Team.addPoints, Team.addError])]
      simp [Team.addPoints, Team.addError]
  · have hCsyn : ¬ (a.addError.addError.addError.points + ({ g with teams := [a.addError.addError.addError, b], round := { g.round with status := ROUND_STATUS.STOLEN }, currentTeam := b.name } : Game).round.points * multiplier ({ g with teams := [a.addError.addError.addError, b], round := { g.round with status := ROUND_STATUS.STOLEN }, currentTeam := b.name } : Game).roundCount ≥ 400) := hC
    rw [if_neg hCsyn]
    refine ⟨?_, ?_, ?_⟩
    · simp [Nat.lt_of_not_le fun hh => hC hh]
    · rw [if_pos (Nat.lt_of_not_le fun hh => hC hh)]
    · unfold pointsOfTeam
      dsimp only
      rw [List.find?_cons_of_pos _ (by simp [Team.addPoints, Team.addError])]
      simp [Team.addPoints, Team.addError]

/-- C5 witness: the amended theorem at `gC5` — blue errs three times, red
errs once; the award 0 + 20 × 1 stays below 400, so the round resolves with
`pendingNextRound = true`, blue credited, and red (the stealer) active. -/
theorem steal_resolution_amended_witness :
    ((((gC5.setBoardError "blue").setBoardError "blue").setBoardError "blue").setBoardError "red").pendingNextRound
      = decide (0 + 20 * multiplier 1 < 400) ∧
    ((((gC5.setBoardError "blue").setBoardError "blue").setBoardError "blue").setBoardError "red").currentTeam
      = (if 0 + 20 * multiplier 1 < 400 then "red" else "blue") ∧
    pointsOfTeam ((((gC5.setBoardError "blue").setBoardError "blue").setBoardError "blue").setBoardError "red") "blue" = 0 + 20 * multiplier 1 :=
  steal_resolution_amended gC5 ⟨"blue", 0, 0⟩ ⟨"red", 0, 0⟩ (by decide) (by decide)
    (by decide) (by decide) (by decide) (by decide) (by decide)

/-- C4 (code-bug evidence): `gC5run` is the state right after a steal was
resolved by an error (`pendingNextRound = true`, status still STOLEN, blue
credited the 20 round points).  A subsequent error event is still accepted
and re-runs the whole steal resolution: red's error count grows to 2 and
blue is awarded the 20 round points a second time (total 40); a subsequent
awarding reveal of the remaining rank is likewise accepted and awards red
20 + 30 = 50 points.  Both contradict the claim (and the STOLEN doc comment
"opposing team gets one chance") that no further error or reveal is accepted
once the steal is resolved. -/
theorem post_steal_events_still_mutate :
    gC5run.pendingNextRound = true ∧
    gC5run.round.status = ROUND_STATUS.STOLEN ∧
    pointsOfTeam gC5run "blue" = 20 ∧
    pointsOfTeam ((gC5run.addErrorForSelectedTeam).2) "blue" = 40 ∧
    errorsOfTeam ((gC5run.addErrorForSelectedTeam).2) "red" = 2 ∧
    pointsOfTeam (gC5run.handlePlayerAnswer "pies") "red" = 50 ∧
    (gC5run.addErrorForSelectedTeam).2 ≠ gC5run := by
  decide

/-- A question whose stored answer text carries a Polish diacritic. -/
def qPol : Question := { name := "qp", answers := [⟨"żaba", 1, 10⟩] }

/-- The example game playing `qPol`. -/
def gPol : Game := { gEx with round := Round.make qPol }

/-- C6 (code-bug evidence): matching is not case-insensitive and not
diacritic-insensitive on the stored side.  The guess is diacritic-stripped
but never lower-cased, so the guess "KOT" (the stored answer "kot" with its
letter case changed) does not match, while the identical lower-case guess
does; and a stored answer "żaba" containing a diacritic matches neither the
identical guess "żaba" nor its diacritic-free variant "zaba", because only
the guess side is diacritic-stripped.  This contradicts the claim and the
code's own doc comment on `removeDiacritics` ("Used for case-insensitive
answer matching"). -/
theorem case_sensitive_matching_bug :
    gEx.resolvePlayerAnswer "kot" = some ⟨"kot", 1, 40⟩ ∧
    gEx.resolvePlayerAnswer "KOT" = none ∧
    gEx.resolvePlayerAnswer "Kot" = none ∧
    gPol.resolvePlayerAnswer "żaba" = none ∧
    gPol.resolvePlayerAnswer "zaba" = none ∧
    removeDiacritics "KOT" = "KOT" ∧
    removeDiacritics "żaba" = "zaba" ∧
    jsToLowerString "żaba" = "żaba" := by
  decide

/-- C7 counterexample: on a fresh round, a single `revealAnswerOnly` leaves
zero credited (point-adding) reveals — `points` stays 0 — yet the right
counter becomes 1, refuting "the right counter equals the number of
revealed-and-credited answers: answers revealed through `revealAnswerOnly`
do not increment it". -/
theorem right_counts_reveal_only_counterexample :
    (Round.make q1).right = 0 ∧
    ((Round.make q1).revealAnswerOnly ⟨"kot", 1, 40⟩).right = 1 ∧
    ((Round.make q1).revealAnswerOnly ⟨"kot", 1, 40⟩).points = 0 := by
  decide

/-- The right-counter invariant that actually holds: `right` equals the size
of the revealed set in the live round and in every stacked snapshot. -/
def RightInv (g : Game) : Prop :=
  g.round.right = g.round.revealed.length ∧
  ∀ s ∈ g.undoStack, s.roundRight = s.revealed.length

instance : DecidablePred RightInv := fun g => by unfold RightInv; infer_instance

theorem setBoardError_round_frame (g : Game) (n : String) :
    (g.setBoardError n).round.right = g.round.right ∧
    (g.setBoardError n).round.revealed = g.round.revealed := by
  cases hst : g.round.status with
  | DEFAULT =>
      rw [setBoardError_default_eq g n hst]
      split
      · exact ⟨by simp [switchCurrentTeam_round], by simp [switchCurrentTeam_round]⟩
      · exact ⟨rfl, rfl⟩
  | STOLEN =>
      rw [setBoardError_stolen_round g n hst]
      exact ⟨rfl, rfl⟩

theorem revealAnswerOnly_inv (r : Round) (a : Answer)
    (hr : r.right = r.revealed.length) :
    (r.revealAnswerOnly a).right = (r.revealAnswerOnly a).revealed.length := by
  unfold Round.revealAnswerOnly
  split
  · exact hr
  · simp [hr]

theorem setBoardAnswer_inv (g : Game) (a : Answer)
    (hr : g.round.right = g.round.revealed.length) :
    (g.setBoardAnswer a).round.right = (g.setBoardAnswer a).round.revealed.length := by
  unfold Game.setBoardAnswer
  split
  · exact hr
  · dsimp only
    split
    · rw [finishRound_round]
      simp [hr]
    · simp [hr]

theorem action_right_inv (a : GameAction) (g g' : Game) (h : a.apply g = some g')
    (hinv : RightInv g) : RightInv g' := by
  have hstack := (action_shape a g g' h).1
  have hstackinv : ∀ s ∈ g'.undoStack, s.roundRight = s.revealed.length := by
    rw [hstack]
    intro s hs
    rcases List.mem_cons.mp hs with hs | hs
    · subst hs
      exact hinv.1
    · exact hinv.2 s hs
  refine ⟨?_, hstackinv⟩
  cases a with
  | handlePlayerAnswer text =>
      simp only [GameAction.apply, Option.some.injEq] at h
      subst h
      simp only [Game.handlePlayerAnswer]
      split
      · split
        · split
          · exact revealAnswerOnly_inv _ _ hinv.1
          · exact revealAnswerOnly_inv _ _ hinv.1
        · exact hinv.1
      · split
        · exact setBoardAnswer_inv _ _ hinv.1
        · have hf := setBoardError_round_frame g.pushUndoSnapshot
          rw [(hf _).1, (hf _).2]
          exact hinv.1
  | revealAnswerByNumber number =>
      simp only [GameAction.apply] at h
      split at h
      next g1 heq =>
        simp only [Option.some.injEq] at h
        subst h
        simp only [Game.revealAnswerByNumber] at heq
        split at heq
        · exact absurd heq (by simp)
        · split at heq
          · split at heq <;>
              { simp only [Prod.mk.injEq, true_and] at heq
                rw [← heq]
                exact revealAnswerOnly_inv _ _ hinv.1 }
          · simp only [Prod.mk.injEq, true_and] at heq
            rw [← heq]
            exact setBoardAnswer_inv _ _ hinv.1
      next heq => exact absurd h (by simp)
  | addErrorForSelectedTeam =>
      simp only [GameAction.apply] at h
      split at h
      next g1 heq =>
        simp only [Option.some.injEq] at h
        subst h
        simp only [Game.addErrorForSelectedTeam] at heq
        split at heq
        · exact absurd heq (by simp)
        · simp only [Prod.mk.injEq, true_and] at heq
          rw [← heq]
          have hf := setBoardError_round_frame g.pushUndoSnapshot
          rw [(hf _).1, (hf _).2]
          exact hinv.1
      next heq => exact absurd h (by simp)
  | setCurrentTeam teamName =>
      simp only [GameAction.apply, Option.some.injEq] at h
      subst h
      exact hinv.1
  | advanceToNextRound pick =>
      simp only [GameAction.apply] at h
      split at h
      next g1 heq =>
        simp only [Option.some.injEq] at h
        subst h
        simp only [Game.advanceToNextRound] at heq
        split at heq
        · simp at heq
        · simp only [Option.map_eq_some'] at heq
          obtain ⟨g2, hg2, hpair⟩ := heq
          obtain ⟨-, rfl⟩ := Prod.mk.injEq .. ▸ (Prod.ext_iff.mp hpair.symm)
          simp only [Game.startNewRound] at hg2
          split at hg2
          next q store1 hq =>
            simp only [Game.setRandomTeam, Option.map_eq_some'] at hg2
            obtain ⟨team, -, rfl⟩ := hg2
            rfl
          next hq => exact absurd hg2 (by simp)
      next heq => exact absurd h (by simp)

theorem applyActions_right_inv (as : List GameAction) (g g' : Game)
    (hinv : RightInv g) (h : applyActions as g = some g') : RightInv g' := by
  induction as generalizing g with
  | nil =>
      simp only [applyActions, Option.some.injEq] at h
      subst h
      exact hinv
  | cons a as ih =>
      simp only [applyActions] at h
      split at h
      next g1 heq => exact ih g1 (action_right_inv a g g1 heq hinv) h
      next => exact absurd h (by simp)

theorem undo_right (g : Game) (hinv : RightInv g) :
    (g.undo).2.round.right = (g.undo).2.round.revealed.length := by
  unfold Game.undo
  cases hstack : g.undoStack with
  | nil => exact hinv.1
  | cons s rest =>
      dsimp only
      exact hinv.2 s (by rw [hstack]; simp)

/-- C7 (amended): the right counter counts every revealed answer, through
the awarding and the non-awarding path alike: in every game state reachable
by forward actions (and still after an `undo`), `round.right` equals the
size of the revealed set.  `revealAnswerOnly` does increment `right` (by one
per fresh rank) — what it leaves untouched is `round.points`, so "credited"
is tracked by the points accumulator, not by `right`. -/
theorem right_counter_amended (as : List GameAction) (g g' : Game)
    (hinv : RightInv g) (h : applyActions as g = some g') :
    RightInv g' ∧
    (g'.undo).2.round.right = (g'.undo).2.round.revealed.length ∧
    (∀ (r : Round) (ans : Answer), (r.revealAnswerOnly ans).points = r.points) ∧
    (∀ (r : Round) (ans : Answer), ans.lp ∉ r.revealed → (r.revealAnswerOnly ans).right = r.right + 1) := by
  have hinv' := applyActions_right_inv as g g' hinv h
  refine ⟨hinv', undo_right g' hinv', ?_, ?_⟩
  · intro r ans
    unfold Round.revealAnswerOnly
    split <;> rfl
  · intro r ans hfresh
    unfold Round.revealAnswerOnly
    rw [if_neg hfresh]

/-- C7 witness: the invariant at the state reached by an award-less reveal
of rank 1 (no team active) from the fresh example game. -/
theorem right_counter_amended_witness :
    RightInv ((gNoTeam.revealAnswerByNumber 1).2) ∧
    (((gNoTeam.revealAnswerByNumber 1).2).undo).2.round.right
      = (((gNoTeam.revealAnswerByNumber 1).2).undo).2.round.revealed.length ∧
    (∀ (r : Round) (ans : Answer), (r.revealAnswerOnly ans).points = r.points) ∧
    (∀ (r : Round) (ans : Answer), ans.lp ∉ r.revealed → (r.revealAnswerOnly ans).right = r.right + 1) :=
  right_counter_amended [GameAction.revealAnswerByNumber 1] gNoTeam
    ((gNoTeam.revealAnswerByNumber 1).2) (by decide) (by decide)

/-- C10: QuestionStore construction filters the falsy (nullish, modelled as
`none`) entries out of each question's answer list, and the Question
constructor's second null-filter then removes nothing: every stored Question
holds exactly the Answer records built from the non-null raw entries, so no
operation iterating a question's answers can meet a null entry. -/
theorem questionStore_filters_nulls (raw : List (String × List (Option Answer))) :
    (QuestionStore.make raw).questions
      = raw.map (fun p => { name := p.1, answers := (p.2.filterMap id).map Answer.ofRec }) ∧
    ∀ q ∈ (QuestionStore.make raw).questions,
      ∃ p ∈ raw, q.answers = (p.2.filterMap id).map Answer.ofRec := by
  have h1 : (QuestionStore.make raw).questions
      = raw.map (fun p => { name := p.1, answers := (p.2.filterMap id).map Answer.ofRec }) := by
    simp [QuestionStore.make, parseQuestions, mkQuestion, List.filterMap_map]
  refine ⟨h1, ?_⟩
  intro q hq
  rw [h1] at hq
  obtain ⟨p, hp, rfl⟩ := List.mem_map.mp hq
  exact ⟨p, hp, rfl⟩

/-- A raw dataset with a null entry in the middle of the answer list. -/
def raw0 : List (String × List (Option Answer)) :=
  [("q", [some ⟨"kot", 1, 40⟩, none, some ⟨"pies", 2, 30⟩])]

/-- C10 witness: the store built from `raw0` holds exactly the two non-null
answers. -/
theorem questionStore_filters_nulls_witness :
    (QuestionStore.make raw0).questions
      = raw0.map (fun p => { name := p.1, answers := (p.2.filterMap id).map Answer.ofRec }) ∧
    ∀ q ∈ (QuestionStore.make raw0).questions,
      ∃ p ∈ raw0, q.answers = (p.2.filterMap id).map Answer.ofRec :=
  questionStore_filters_nulls raw0
